import Mathlib

/-!
Shallow embedding of the CH32V307 flashloader (src/src/main.rs).

The four entry points drive a memory-mapped flash controller (the source
bodies use the GD32VF103 FMC/RCU register accessors).  Each entry point is
embedded as a function from its arguments, plus an oracle for the values the
hardware status reads return, to the ordered trace of volatile accesses it
performs together with its i32 return value.  A busy-wait loop on a status
bit is recorded as a single poll event.  A small register-state semantics
interprets traces for the state-shaped claims.  The statically initialised
device descriptor and the marker symbol are transcribed directly, and the
Rust `repr(C)` field-offset computation is embedded to check the descriptor
byte layout.
-/

namespace Ch32Loader

/-- Clock bring-up steps performed by `Init` on the RCU registers
(src/main.rs lines 85-102), in program order. -/
inductive ClkEv where
  | irc8mEnable
  | waitIrc8mStable
  | selectIrc8m
  | waitScssIrc8m
  | pllDisable
  | cfgPrescalersAndPll
  | pllEnable
  | waitPllStable
  | selectPll
  | waitScssPll
deriving DecidableEq, Repr

/-- Observable actions of the flashloader entry points: whole-register
volatile stores to the FMC control, address, key and status registers,
read-modify-write of the control register, busy-bit polls, volatile 32-bit
stores to target flash, and the clock bring-up steps of `Init`. -/
inductive Ev where
  | ctlWrite (v : Nat)
  | ctlModifyOr (m : Nat)
  | addrWrite (v : Nat)
  | keyWrite (v : Nat)
  | statClear (m : Nat)
  | busyPoll
  | memWrite (a v : Nat)
  | clk (c : ClkEv)
deriving DecidableEq, Repr

/-- Program command bit of FMC_CTL0 (`pg`, bit 0). -/
def CTL_PG : Nat := 1

/-- Page-erase command bit of FMC_CTL0 (`per`, bit 1). -/
def CTL_PER : Nat := 2

/-- Start bit of FMC_CTL0 (`start`, bit 6). -/
def CTL_START : Nat := 64

/-- Lock bit of FMC_CTL0 (`lk`, bit 7); also the register's reset value. -/
def CTL_LK : Nat := 128

/-- Programming-error flag of FMC_STAT0 (`pgerr`, bit 2). -/
def STAT_PGERR : Nat := 4

/-- Write-protect error flag of FMC_STAT0 (`wperr`, bit 4). -/
def STAT_WPERR : Nat := 16

/-- First flash unlock key (src/main.rs line 106). -/
def FLASH_KEY1 : Nat := 0x45670123

/-- Second flash unlock key (src/main.rs line 107). -/
def FLASH_KEY2 : Nat := 0xCDEF89AB

/-- `EraseSector` (src/main.rs lines 28-54).  The oracle booleans `pgerr` and
`wperr` are the error flags the two status reads after the erase report.
Steps: whole-register write setting only `per` (`write_with_zero`), write the
sector address, read-modify-write setting `start`, poll busy, whole-register
write of 0 clearing `per`; then on either error flag, write-one-to-clear the
two error bits and return 1, else return 0. -/
def EraseSector (adr : Nat) (pgerr wperr : Bool) : List Ev × Int :=
  let tr := [Ev.ctlWrite CTL_PER, Ev.addrWrite adr, Ev.ctlModifyOr CTL_START,
             Ev.busyPoll, Ev.ctlWrite 0]
  if pgerr || wperr then
    (tr ++ [Ev.statClear (STAT_PGERR ||| STAT_WPERR)], 1)
  else
    (tr, 0)

/-- Body of the `ProgramPage` loop (src/main.rs lines 137-150) over the
enumerated word list: for each pair `(offset, item)` store the word to
`adr + offset * 4`, poll busy, and if the oracle `err` reports an error flag
for that iteration, write 0 to the key register and return 1. -/
def progWords (adr : Nat) (err : Nat → Bool) : List (Nat × Nat) → List Ev × Int
  | [] => ([], 0)
  | p :: rest =>
    let evs := [Ev.memWrite (adr + p.1 * 4) p.2, Ev.busyPoll]
    if err p.1 then
      (evs ++ [Ev.keyWrite 0], 1)
    else
      let r := progWords adr err rest
      (evs ++ r.1, r.2)

/-- `ProgramPage` (src/main.rs lines 119-153).  `buf i` is the 32-bit word at
word offset `i` of the source buffer; `err i` tells whether the status read
after word `i` reports `pgerr` or `wperr`.  The source builds a slice of
`sz >> 2` words, iterates `src_slice.iter().enumerate().take(sz)` (the
`take(sz)` kept verbatim), and first does a whole-register write setting only
the `pg` bit. -/
def ProgramPage (adr sz : Nat) (buf : Nat → Nat) (err : Nat → Bool) : List Ev × Int :=
  let sz_usize := sz >>> 2
  let src_slice := (List.range sz_usize).map fun i => (i, buf i)
  let r := progWords adr err (src_slice.take sz)
  (Ev.ctlWrite CTL_PG :: r.1, r.2)

/-- Clock bring-up sequence of `Init` (src/main.rs lines 85-102). -/
def clkBringUp : List Ev :=
  [Ev.clk ClkEv.irc8mEnable, Ev.clk ClkEv.waitIrc8mStable, Ev.clk ClkEv.selectIrc8m,
   Ev.clk ClkEv.waitScssIrc8m, Ev.clk ClkEv.pllDisable, Ev.clk ClkEv.cfgPrescalersAndPll,
   Ev.clk ClkEv.pllEnable, Ev.clk ClkEv.waitPllStable, Ev.clk ClkEv.selectPll,
   Ev.clk ClkEv.waitScssPll]

/-- `Init` (src/main.rs lines 69-115).  `lk` is the lock bit the single
read of FMC_CTL0 reports.  After the clock bring-up, when the lock bit is
set the two magic keys are written to the key register in order; always
returns 0. -/
def Init (_adr _clk _fnc : Nat) (lk : Bool) : List Ev × Int :=
  (clkBringUp ++ (if lk then [Ev.keyWrite FLASH_KEY1, Ev.keyWrite FLASH_KEY2] else []), 0)

/-- `UnInit` (src/main.rs lines 164-177): reset FMC_CTL0 to its reset value
(lock bit set) and return 0. -/
def UnInit (_fnc : Nat) : List Ev × Int :=
  ([Ev.ctlWrite CTL_LK], 0)

/-- Flash-controller register file acted on by the event traces. -/
structure Regs where
  ctl0 : Nat
  addr0 : Nat
  key0 : Nat
  stat0 : Nat
deriving DecidableEq, Repr

/-- Effect of one event on the register file.  `ctlWrite` stores the whole
value; `ctlModifyOr` is svd2rust `modify` setting bits; `statClear` is
write-one-to-clear of the given bits; polls, flash stores and clock accesses
leave the FMC register file unchanged. -/
def applyEv (r : Regs) : Ev → Regs
  | Ev.ctlWrite v => { r with ctl0 := v }
  | Ev.ctlModifyOr m => { r with ctl0 := r.ctl0 ||| m }
  | Ev.addrWrite v => { r with addr0 := v }
  | Ev.keyWrite v => { r with key0 := v }
  | Ev.statClear m => { r with stat0 := r.stat0 &&& (0xFFFFFFFF ^^^ m) }
  | Ev.busyPoll => r
  | Ev.memWrite _ _ => r
  | Ev.clk _ => r

/-- Run a trace of events on a register file. -/
def applyTrace (r : Regs) (tr : List Ev) : Regs :=
  tr.foldl applyEv r

/-- Whether an event is a store to the flash key register. -/
def isKeyWrite : Ev → Bool
  | Ev.keyWrite _ => true
  | _ => false

/-- Whether an event is a volatile word store to target flash. -/
def isMemWrite : Ev → Bool
  | Ev.memWrite _ _ => true
  | _ => false

/-- Whether an event is a write-one-to-clear store to the status register. -/
def isStatClear : Ev → Bool
  | Ev.statClear _ => true
  | _ => false

/-- Destination address of a flash word store, if the event is one. -/
def memDst : Ev → Option Nat
  | Ev.memWrite a _ => some a
  | _ => none

/-- Value of a key-register store, if the event is one. -/
def keyVal : Ev → Option Nat
  | Ev.keyWrite v => some v
  | _ => none

/-- One entry of the sector table: length in bytes and offset of the first
sector of that size (src/main.rs lines 240-245). -/
structure FlashSector where
  size : Nat
  address : Nat
deriving DecidableEq, Repr

/-- `FlashSector::default()` (src/main.rs lines 247-254). -/
def FlashSector.mkDefault : FlashSector := ⟨0, 0⟩

/-- Sentinel entry terminating the sector table (src/main.rs lines 256-259). -/
def SECTOR_END : FlashSector := ⟨0xffffffff, 0xffffffff⟩

/-- `sectors()` (src/main.rs lines 179-190): an array of 512 default entries
with index 0 set to the single 1 KB sector at offset 0 and index 1 set to the
sentinel. -/
def sectors : List FlashSector :=
  ((List.replicate 512 FlashSector.mkDefault).set 0 ⟨0x0400, 0x0⟩).set 1 SECTOR_END

/-- Field record of `FlashDeviceDescription` (src/main.rs lines 224-238);
`reservedWord` stands for the source's reserved u32 field. -/
structure FlashDeviceDescription where
  vers : Nat
  dev_name : List Nat
  dev_type : Nat
  dev_addr : Nat
  device_size : Nat
  page_size : Nat
  reservedWord : Nat
  empty : Nat
  program_time_out : Nat
  erase_time_out : Nat
  flash_sectors : List FlashSector
deriving DecidableEq, Repr

/-- The 128 `dev_name` bytes (src/main.rs lines 202-212): the ASCII string
followed by zero padding up to 128 entries. -/
def devNameBytes : List Nat :=
  [0x47, 0x44, 0x33, 0x32, 0x56, 0x46, 0x31, 0x30, 0x33, 0x20, 0x31, 0x32, 0x38, 0x20, 0x4b,
   0x42, 0x20, 0x69, 0x6e, 0x74, 0x65, 0x72, 0x6e, 0x61, 0x6c, 0x20, 0x66, 0x6c, 0x61, 0x73,
   0x68] ++ List.replicate 97 0

/-- The statically initialised `FlashDevice` descriptor
(src/main.rs lines 195-222). -/
def FlashDevice : FlashDeviceDescription :=
  { vers := 0x0101
    dev_name := devNameBytes
    dev_type := 1
    dev_addr := 0x08000000
    device_size := 0x00020000
    page_size := 1024
    reservedWord := 0
    empty := 0xff
    program_time_out := 100
    erase_time_out := 6000
    flash_sectors := sectors }

/-- Size and alignment of one field for the `repr(C)` layout computation. -/
structure FieldLayout where
  sz : Nat
  align : Nat
deriving DecidableEq, Repr

/-- Round `off` up to the next multiple of `a`. -/
def alignUp (off a : Nat) : Nat := ((off + a - 1) / a) * a

/-- Offsets assigned to a field list by the C / Rust `repr(C)` layout rule:
each field is placed at the current offset rounded up to the field's
alignment. -/
def offsetsFrom (off : Nat) : List FieldLayout → List Nat
  | [] => []
  | f :: fs =>
    let o := alignUp off f.align
    o :: offsetsFrom (o + f.sz) fs

/-- Sizes and alignments of the `FlashDeviceDescription` fields in source
order (src/main.rs lines 224-238): u16, [u8; 128], u16, u32, u32, u32, u32,
u8, u32, u32, [FlashSector; 512] with FlashSector two u32s. -/
def fdFields : List FieldLayout :=
  [⟨2, 2⟩, ⟨128, 1⟩, ⟨2, 2⟩, ⟨4, 4⟩, ⟨4, 4⟩, ⟨4, 4⟩, ⟨4, 4⟩, ⟨1, 1⟩, ⟨4, 4⟩, ⟨4, 4⟩,
   ⟨8 * 512, 4⟩]

/-- Byte offset of each `FlashDeviceDescription` field in the `DeviceData`
section, per `repr(C)`. -/
def fdOffsets : List Nat := offsetsFrom 0 fdFields

/-- Link-level attributes of an exported static, as written in the source:
exact symbol name, target section, `no_mangle`, `used` retention, and the
initialiser value. -/
structure SymbolDef where
  name : String
  linkSection : String
  noMangle : Bool
  usedAttr : Bool
  value : Nat
deriving DecidableEq, Repr

/-- The marker static of src/main.rs lines 13-21: `pub static
PRGDATA_Start: usize = 0` with `no_mangle`, `used` and `link_section =
PrgData`. -/
def PRGDATA_Start_symbol : SymbolDef :=
  { name := "PRGDATA_Start"
    linkSection := "PrgData"
    noMangle := true
    usedAttr := true
    value := 0 }

/-- One `ProgramPage` loop iteration's events for word offset `i`: the
volatile store and the busy poll. -/
def progBlock (adr : Nat) (buf : Nat → Nat) (i : Nat) : List Ev :=
  [Ev.memWrite (adr + i * 4) (buf i), Ev.busyPoll]

/-- Control-register writes that set the program command bit. -/
def setsPg : Ev → Bool
  | Ev.ctlWrite v => v &&& CTL_PG != 0
  | Ev.ctlModifyOr m => m &&& CTL_PG != 0
  | _ => false

theorem shiftRight2_eq_div4 (sz : Nat) : sz >>> 2 = sz / 4 := by
  simp [Nat.shiftRight_eq_div_pow]

theorem progWords_noErr (adr : Nat) (err : Nat → Bool) (buf : Nat → Nat) :
    ∀ (n s : Nat), (∀ i, s ≤ i → i < s + n → err i = false) →
      progWords adr err ((List.range' s n).map fun i => (i, buf i)) =
        (((List.range' s n).map (progBlock adr buf)).flatten, 0) := by
  intro n
  induction n with
  | zero => intro s _; rfl
  | succ n ih =>
    intro s h
    have hs : err s = false := h s le_rfl (by omega)
    rw [List.range'_succ, List.map_cons, List.map_cons, List.flatten_cons]
    simp only [progWords, hs, Bool.false_eq_true, if_false]
    rw [ih (s + 1) (fun i h1 h2 => h i (by omega) (by omega))]
    simp [progBlock]

theorem progWords_err (adr : Nat) (err : Nat → Bool) (buf : Nat → Nat) :
    ∀ (n s k : Nat), s ≤ k → k < s + n →
      (∀ i, s ≤ i → i < k → err i = false) → err k = true →
      progWords adr err ((List.range' s n).map fun i => (i, buf i)) =
        ((((List.range' s (k + 1 - s)).map (progBlock adr buf)).flatten) ++ [Ev.keyWrite 0], 1) := by
  intro n
  induction n with
  | zero => intro s k h1 h2 _ _; omega
  | succ n ih =>
    intro s k hsk hkn hb he
    by_cases hcase : s = k
    · subst hcase
      rw [List.range'_succ, List.map_cons]
      simp only [progWords, he, if_true]
      have h1 : s + 1 - s = 1 := by omega
      rw [h1]
      simp [progBlock, List.range'_one]
    · have hs : err s = false := hb s le_rfl (by omega)
      rw [List.range'_succ, List.map_cons]
      simp only [progWords, hs, Bool.false_eq_true, if_false]
      rw [ih (s + 1) k (by omega) (by omega) (fun i h1 h2 => hb i (by omega) h2) he]
      have h2 : k + 1 - s = (k + 1 - (s + 1)) + 1 := by omega
      rw [h2, List.range'_succ, List.map_cons, List.flatten_cons]
      simp [progBlock]

theorem blocks_filter_isMemWrite (adr : Nat) (buf : Nat → Nat) (l : List Nat) :
    ((l.map (progBlock adr buf)).flatten.filter isMemWrite)
      = l.map fun i => Ev.memWrite (adr + i * 4) (buf i) := by
  induction l with
  | nil => rfl
  | cons a l ih => simp [progBlock, List.flatten_cons, List.filter_append, ih, isMemWrite]

theorem blocks_filterMap_memDst (adr : Nat) (buf : Nat → Nat) (l : List Nat) :
    ((l.map (progBlock adr buf)).flatten.filterMap memDst)
      = l.map fun i => adr + i * 4 := by
  induction l with
  | nil => rfl
  | cons a l ih => simp [progBlock, List.flatten_cons, List.filterMap_append, ih, memDst]

theorem blocks_countP_zero (adr : Nat) (buf : Nat → Nat) (p : Ev → Bool)
    (hmw : ∀ a v, p (Ev.memWrite a v) = false) (hbp : p Ev.busyPoll = false) (l : List Nat) :
    ((l.map (progBlock adr buf)).flatten.countP p) = 0 := by
  induction l with
  | nil => rfl
  | cons a l ih =>
    simp [progBlock, List.flatten_cons, List.countP_append, List.countP_cons, hmw, hbp, ih]

theorem take_sz_collapse (sz : Nat) (buf : Nat → Nat) :
    (((List.range (sz >>> 2)).map fun i => (i, buf i)).take sz)
      = (List.range (sz >>> 2)).map fun i => (i, buf i) := by
  apply List.take_of_length_le
  simp [Nat.shiftRight_eq_div_pow]
  omega

theorem programPage_trace_noErr (adr sz : Nat) (buf : Nat → Nat) (err : Nat → Bool)
    (hne : ∀ i, err i = false) :
    ProgramPage adr sz buf err =
      (Ev.ctlWrite CTL_PG :: ((List.range (sz / 4)).map (progBlock adr buf)).flatten, 0) := by
  simp only [ProgramPage]
  rw [take_sz_collapse, shiftRight2_eq_div4, List.range_eq_range',
      progWords_noErr adr err buf (sz / 4) 0 (fun i _ _ => hne i)]

theorem programPage_trace_err (adr sz k : Nat) (buf : Nat → Nat) (err : Nat → Bool)
    (hk : k < sz >>> 2) (hb : ∀ j, j < k → err j = false) (he : err k = true) :
    ProgramPage adr sz buf err =
      (Ev.ctlWrite CTL_PG ::
        (((List.range (k + 1)).map (progBlock adr buf)).flatten ++ [Ev.keyWrite 0]), 1) := by
  have hk4 : k < sz / 4 := by rw [← shiftRight2_eq_div4]; exact hk
  simp only [ProgramPage]
  rw [take_sz_collapse, shiftRight2_eq_div4, List.range_eq_range',
      progWords_err adr err buf (sz / 4) 0 k (Nat.zero_le k) (by omega)
        (fun i _ h2 => hb i h2) he]
  simp [List.range_eq_range']

/-- Claim C1: for every call to `ProgramPage` with `sz` a multiple of 4 (and
no error reported), the trace is exactly one whole-register write setting the
program command bit followed by `sz / 4` volatile word writes to the strictly
increasing addresses `adr, adr + 4, ..., adr + sz - 4` in order, each
followed by a busy poll, and the return value is 0; in particular the
`take(sz)` bound does not change the number of words written. -/
theorem programPage_word_stream (adr sz : Nat) (buf : Nat → Nat) (err : Nat → Bool)
    (h4 : sz % 4 = 0) (hne : ∀ i, err i = false) :
    (ProgramPage adr sz buf err).1 =
      Ev.ctlWrite CTL_PG :: ((List.range (sz / 4)).map (progBlock adr buf)).flatten
    ∧ (ProgramPage adr sz buf err).2 = 0
    ∧ ((ProgramPage adr sz buf err).1.filter isMemWrite).length = sz / 4
    ∧ (ProgramPage adr sz buf err).1.filterMap memDst
        = ((List.range (sz / 4)).map fun i => adr + i * 4)
    ∧ ((ProgramPage adr sz buf err).1.filterMap memDst).Pairwise (· < ·)
    ∧ (ProgramPage adr sz buf err).1.countP setsPg = 1 := by
  have htr := programPage_trace_noErr adr sz buf err hne
  rw [htr]
  have hfm : (Ev.ctlWrite CTL_PG ::
        ((List.range (sz / 4)).map (progBlock adr buf)).flatten).filterMap memDst
      = ((List.range (sz / 4)).map fun i => adr + i * 4) := by
    rw [show (Ev.ctlWrite CTL_PG ::
          ((List.range (sz / 4)).map (progBlock adr buf)).flatten).filterMap memDst
        = (((List.range (sz / 4)).map (progBlock adr buf)).flatten).filterMap memDst from rfl,
      blocks_filterMap_memDst]
  refine ⟨rfl, rfl, ?_, hfm, ?_, ?_⟩
  · rw [show (Ev.ctlWrite CTL_PG ::
          ((List.range (sz / 4)).map (progBlock adr buf)).flatten).filter isMemWrite
        = (((List.range (sz / 4)).map (progBlock adr buf)).flatten).filter isMemWrite from rfl,
      blocks_filter_isMemWrite]
    simp
  · rw [hfm]
    exact (List.pairwise_lt_range _).map _ (fun a b h => by omega)
  · rw [List.countP_cons, blocks_countP_zero adr buf setsPg (fun a v => rfl) rfl]
    decide

/-- Witness for C1: `ProgramPage` at `adr = 0x08000000`, `sz = 8` with no
error writes exactly two words and succeeds. -/
theorem programPage_word_stream_witness :
    ((ProgramPage 0x08000000 8 (fun i => i + 17) (fun _ => false)).1.filter isMemWrite).length = 2
    ∧ (ProgramPage 0x08000000 8 (fun i => i + 17) (fun _ => false)).2 = 0
    ∧ (ProgramPage 0x08000000 8 (fun i => i + 17) (fun _ => false)).1.filterMap memDst
        = [0x08000000, 0x08000004] := by
  have h := programPage_word_stream 0x08000000 8 (fun i => i + 17) (fun _ => false)
    (by decide) (fun _ => rfl)
  exact ⟨h.2.2.1, h.2.1, by rw [h.2.2.2.1]; rfl⟩

/-- Claim C2: `EraseSector` never writes the key register (so an erase error
does not lock the controller), whereas `ProgramPage` on the first error at
word `k` writes 0 to the key register, returns 1, and performs no further
word writes after the error is observed: the trace ends at the key write and
contains exactly `k + 1` word writes. -/
theorem erase_never_locks_program_error_locks (adr sz k : Nat) (buf : Nat → Nat)
    (err : Nat → Bool) (hk : k < sz >>> 2) (hb : ∀ j, j < k → err j = false)
    (he : err k = true) :
    (∀ a pe we, ((EraseSector a pe we).1.countP isKeyWrite) = 0)
    ∧ (ProgramPage adr sz buf err).2 = 1
    ∧ (ProgramPage adr sz buf err).1 =
        Ev.ctlWrite CTL_PG ::
          (((List.range (k + 1)).map (progBlock adr buf)).flatten ++ [Ev.keyWrite 0])
    ∧ ((ProgramPage adr sz buf err).1.filter isMemWrite).length = k + 1 := by
  have htr := programPage_trace_err adr sz k buf err hk hb he
  refine ⟨?_, by rw [htr], by rw [htr], ?_⟩
  · intro a pe we
    cases pe <;> cases we <;>
      simp [EraseSector, List.countP_cons, List.countP_append, isKeyWrite]
  · rw [htr]
    rw [show (Ev.ctlWrite CTL_PG ::
          (((List.range (k + 1)).map (progBlock adr buf)).flatten ++ [Ev.keyWrite 0])).filter isMemWrite
        = ((((List.range (k + 1)).map (progBlock adr buf)).flatten ++ [Ev.keyWrite 0]).filter isMemWrite)
        from rfl,
      List.filter_append, blocks_filter_isMemWrite]
    simp [isMemWrite]

/-- Witness for C2: an error on the very first word of an 8-byte program
returns 1 after a single word write, and a concrete erase trace holds no key
write. -/
theorem erase_never_locks_program_error_locks_witness :
    (ProgramPage 0x08000000 8 (fun i => i) (fun _ => true)).2 = 1
    ∧ ((ProgramPage 0x08000000 8 (fun i => i) (fun _ => true)).1.filter isMemWrite).length = 1
    ∧ ((EraseSector 0x08000400 false false).1.countP isKeyWrite) = 0 := by
  have h := erase_never_locks_program_error_locks 0x08000000 8 0 (fun i => i) (fun _ => true)
    (by decide) (fun j hj => absurd hj (Nat.not_lt_zero j)) rfl
  exact ⟨h.2.1, h.2.2.2, h.1 0x08000400 false false⟩

/-- Claim C3, counterexample: at a concrete call with the write-protect error
flag asserted during `ProgramPage`, the operation returns 1 and locks the
controller, but its trace contains no write-one-to-clear store to the status
register, contradicting the claim that both entry points clear the error
bits. -/
theorem programPage_error_bits_not_cleared_cex :
    (ProgramPage 0x08000000 4 (fun _ => 0x11) (fun _ => true)).2 = 1
    ∧ (ProgramPage 0x08000000 4 (fun _ => 0x11) (fun _ => true)).1.countP isStatClear = 0
    ∧ (ProgramPage 0x08000000 4 (fun _ => 0x11) (fun _ => true)).1.countP isKeyWrite = 1 := by
  refine ⟨rfl, ?_, ?_⟩ <;> rfl

/-- Claim C3, amended: when the write-protect error flag is asserted during
`EraseSector`, the error bits are cleared (write-one-to-clear of `pgerr` and
`wperr`) and 1 is returned; when an error flag is asserted during
`ProgramPage`, 1 is returned and the controller is locked by a single key
write, but the error bits are not cleared. -/
theorem wperr_clear_amended (adr sz k : Nat) (buf : Nat → Nat) (err : Nat → Bool)
    (hk : k < sz >>> 2) (hb : ∀ j, j < k → err j = false) (he : err k = true) :
    (∀ a pe, (EraseSector a pe true).2 = 1
      ∧ (EraseSector a pe true).1.countP isStatClear = 1
      ∧ Ev.statClear (STAT_PGERR ||| STAT_WPERR) ∈ (EraseSector a pe true).1)
    ∧ (ProgramPage adr sz buf err).2 = 1
    ∧ (ProgramPage adr sz buf err).1.countP isStatClear = 0
    ∧ (ProgramPage adr sz buf err).1.countP isKeyWrite = 1 := by
  have htr := programPage_trace_err adr sz k buf err hk hb he
  refine ⟨?_, by rw [htr], ?_, ?_⟩
  · intro a pe
    refine ⟨by cases pe <;> rfl, ?_, ?_⟩
    · cases pe <;>
        simp [EraseSector, List.countP_cons, List.countP_append, isStatClear]
    · cases pe <;> simp [EraseSector]
  · rw [htr, List.countP_cons, List.countP_append,
        blocks_countP_zero adr buf isStatClear (fun a v => rfl) rfl]
    decide
  · rw [htr, List.countP_cons, List.countP_append,
        blocks_countP_zero adr buf isKeyWrite (fun a v => rfl) rfl]
    decide

/-- Witness for the amended C3 at a concrete erase and a concrete program
error. -/
theorem wperr_clear_amended_witness :
    (EraseSector 0x08000400 false true).2 = 1
    ∧ (EraseSector 0x08000400 false true).1.countP isStatClear = 1
    ∧ (ProgramPage 0x08000000 4 (fun _ => 0x22) (fun _ => true)).1.countP isStatClear = 0 := by
  have h := wperr_clear_amended 0x08000000 4 0 (fun _ => 0x22) (fun _ => true)
    (by decide) (fun j hj => absurd hj (Nat.not_lt_zero j)) rfl
  exact ⟨(h.1 0x08000400 false).1, (h.1 0x08000400 false).2.1, h.2.2.1⟩

/-- Claim C4, counterexample: the `repr(C)` layout of
`FlashDeviceDescription` places `program_time_out` at byte offset 152, not at
offset 149 as the claim states — the u32 alignment of `program_time_out`
forces 3 bytes of padding after the 1-byte `empty` field at 148. -/
theorem descriptor_progTimeOut_offset_cex :
    fdOffsets[8]? = some 152 ∧ ¬ fdOffsets[8]? = some 149 := by
  decide

/-- Claim C4, amended: under `repr(C)` the descriptor fields sit at offsets
0, 2, 130, 132, 136, 140, 144 and `empty` at 148 as the claim states, but
`program_time_out` is at 152, `erase_time_out` at 156 and `flash_sectors`
begins at 160, because natural u32 alignment inserts 3 padding bytes after
`empty`. -/
theorem descriptor_offsets_amended :
    fdOffsets = [0, 2, 130, 132, 136, 140, 144, 148, 152, 156, 160]
    ∧ fdOffsets[7]? = some 148 ∧ fdOffsets[8]? = some 152
    ∧ fdOffsets[9]? = some 156 ∧ fdOffsets[10]? = some 160 := by
  decide

/-- Claim C5: `Init` writes the two magic words 0x4567_0123 then 0xCDEF_89AB
to the key register, in that order, exactly when the lock bit is set on
entry; when the lock bit is clear it performs no key-register write.  It
always returns 0. -/
theorem init_unlock_sequence (adr clk fnc : Nat) (lk : Bool) :
    (Init adr clk fnc lk).1.filterMap keyVal =
      (if lk then [FLASH_KEY1, FLASH_KEY2] else [])
    ∧ (Init adr clk fnc lk).2 = 0 := by
  cases lk <;> exact ⟨rfl, rfl⟩

/-- Claim C6: on every return from `EraseSector` — success or failure — the
page-erase command bit is clear: running the trace from any initial register
state leaves the control register equal to 0, so in particular the `per` bit
is clear on both return paths. -/
theorem eraseSector_leaves_per_clear (r0 : Regs) (adr : Nat) (pe we : Bool) :
    (applyTrace r0 (EraseSector adr pe we).1).ctl0 = 0
    ∧ (applyTrace r0 (EraseSector adr pe we).1).ctl0 &&& CTL_PER = 0 := by
  cases pe <;> cases we <;>
    simp [EraseSector, applyTrace, applyEv, List.foldl]

set_option maxRecDepth 8000 in
/-- Claim C7: the statically initialised `FlashDevice` descriptor has the
stated field values, its sector table holds the single 1 KB sector at index
0 and the sentinel at index 1, hence the table is sentinel-terminated
strictly before index 512. -/
theorem flashDevice_static_values :
    FlashDevice.vers = 0x0101
    ∧ FlashDevice.dev_type = 1
    ∧ FlashDevice.dev_addr = 0x08000000
    ∧ FlashDevice.device_size = 0x00020000
    ∧ FlashDevice.page_size = 1024
    ∧ FlashDevice.empty = 0xff
    ∧ FlashDevice.program_time_out = 100
    ∧ FlashDevice.erase_time_out = 6000
    ∧ FlashDevice.flash_sectors[0]? = some ⟨0x400, 0⟩
    ∧ FlashDevice.flash_sectors[1]? = some SECTOR_END
    ∧ (∃ i, i < 512 ∧ FlashDevice.flash_sectors[i]? = some SECTOR_END) :=
  ⟨rfl, rfl, rfl, rfl, rfl, rfl, rfl, rfl, rfl, rfl, ⟨1, by omega, rfl⟩⟩

/-- Claim C8, counterexample: the marker symbol's exported name is
`PRGDATA_Start`, not `PrgData_Start` — the case of the claimed spelling does
not match the source. -/
theorem marker_symbol_name_cex :
    PRGDATA_Start_symbol.name = "PRGDATA_Start"
    ∧ ¬ PRGDATA_Start_symbol.name = "PrgData_Start" := by
  decide

/-- Claim C8, amended: the image exports a marker symbol whose exact
non-mangled name is `PRGDATA_Start`, placed in the section named `PrgData`,
retained against dead-code elimination, with value 0. -/
theorem marker_symbol_amended :
    PRGDATA_Start_symbol.name = "PRGDATA_Start"
    ∧ PRGDATA_Start_symbol.linkSection = "PrgData"
    ∧ PRGDATA_Start_symbol.noMangle = true
    ∧ PRGDATA_Start_symbol.usedAttr = true
    ∧ PRGDATA_Start_symbol.value = 0 :=
  ⟨rfl, rfl, rfl, rfl, rfl⟩

/-- Claim C9: for every size `sz` (in particular when it is not a multiple
of 4) and no error reported, `ProgramPage` programs exactly `floor (sz / 4)`
whole words, silently ignoring the trailing `sz mod 4` bytes, and returns 0
after a single set of the program command bit; for any `sz < 4` — including
`sz = 0` — the trace is just that single command-bit write, with no word
writes at all. -/
theorem programPage_partial_word_sizes (adr sz : Nat) (buf : Nat → Nat) (err : Nat → Bool)
    (hne : ∀ i, err i = false) :
    ((ProgramPage adr sz buf err).1.filter isMemWrite).length = sz / 4
    ∧ (ProgramPage adr sz buf err).2 = 0
    ∧ (ProgramPage adr sz buf err).1.countP setsPg = 1
    ∧ (sz < 4 → (ProgramPage adr sz buf err).1 = [Ev.ctlWrite CTL_PG]) := by
  have htr := programPage_trace_noErr adr sz buf err hne
  refine ⟨?_, by rw [htr], ?_, ?_⟩
  · rw [htr]
    rw [show (Ev.ctlWrite CTL_PG ::
          ((List.range (sz / 4)).map (progBlock adr buf)).flatten).filter isMemWrite
        = (((List.range (sz / 4)).map (progBlock adr buf)).flatten).filter isMemWrite from rfl,
      blocks_filter_isMemWrite]
    simp
  · rw [htr, List.countP_cons, blocks_countP_zero adr buf setsPg (fun a v => rfl) rfl]
    decide
  · intro hlt
    rw [htr]
    have h0 : sz / 4 = 0 := Nat.div_eq_of_lt hlt
    rw [h0]
    rfl

/-- Witness for C9: both a 3-byte and a 0-byte program perform no word
writes, return 0, and still set the program command bit. -/
theorem programPage_partial_word_sizes_witness :
    ((ProgramPage 0x08000000 3 (fun _ => 5) (fun _ => false)).1.filter isMemWrite).length = 0
    ∧ (ProgramPage 0x08000000 3 (fun _ => 5) (fun _ => false)).2 = 0
    ∧ (ProgramPage 0x08000000 3 (fun _ => 5) (fun _ => false)).1 = [Ev.ctlWrite CTL_PG]
    ∧ (ProgramPage 0x08000000 0 (fun _ => 5) (fun _ => false)).2 = 0
    ∧ (ProgramPage 0x08000000 0 (fun _ => 5) (fun _ => false)).1 = [Ev.ctlWrite CTL_PG] := by
  have h3 := programPage_partial_word_sizes 0x08000000 3 (fun _ => 5) (fun _ => false)
    (fun _ => rfl)
  have h0 := programPage_partial_word_sizes 0x08000000 0 (fun _ => 5) (fun _ => false)
    (fun _ => rfl)
  exact ⟨h3.1, h3.2.1, h3.2.2.2 (by decide), h0.2.1, h0.2.2.2 (by decide)⟩

/-- Claim C10: `EraseSector` manipulates the page-erase bit with
whole-register writes: the first event of its trace is a whole-register
write whose value is exactly the `per` bit (so any previously set control
bits, e.g. the program command bit, are zeroed regardless of the initial
state), and running the trace from any initial register state leaves the
control register equal to 0 on both outcomes. -/
theorem eraseSector_whole_register_writes (r0 : Regs) (adr : Nat) (pe we : Bool) :
    (EraseSector adr pe we).1.head? = some (Ev.ctlWrite CTL_PER)
    ∧ (applyEv r0 (Ev.ctlWrite CTL_PER)).ctl0 = CTL_PER
    ∧ (applyEv r0 (Ev.ctlWrite CTL_PER)).ctl0 &&& CTL_PG = 0
    ∧ (applyTrace r0 (EraseSector adr pe we).1).ctl0 = 0 := by
  refine ⟨by cases pe <;> cases we <;> rfl, rfl,
    by change CTL_PER &&& CTL_PG = 0; decide, ?_⟩
  cases pe <;> cases we <;>
    simp [EraseSector, applyTrace, applyEv, List.foldl]

end Ch32Loader
